import Mathlib

/-!
Shallow embedding of the QA dataset generator (agents.py, main.py,
prompts.py).  Python strings are modelled as `List Char`, Python ints as
`Int`, floats that only ever hold 1.0, 0.5 or 0.8 as `ℚ`.  Backend (Groq
API) calls are modelled as oracles: an `Option` result, `none` meaning the
call raised.  The unbounded `while` loop of `create_chunks` is embedded
with explicit fuel; running out of fuel is a distinguished outcome, so
divergence of the source loop is provable as `∀ fuel, result = .fuel`.
-/

namespace QADataset

/-- Python `str` whitespace for `.strip()` (ASCII part, which covers every
text used in the development). -/
def pyIsSpace (c : Char) : Bool :=
  c == ' ' || c == '\t' || c == '\n' || c == '\r' || c == '\x0b' || c == '\x0c'

/-- Python `s.strip()`. -/
def pyStrip (s : List Char) : List Char :=
  ((s.dropWhile pyIsSpace).reverse.dropWhile pyIsSpace).reverse

/-- Python slicing `s[a:b]` with full negative-index semantics. -/
def pySlice (s : List Char) (a b : Int) : List Char :=
  let n : Int := s.length
  let a' : Int := if a < 0 then max (n + a) 0 else min a n
  let b' : Int := if b < 0 then max (n + b) 0 else min b n
  (s.take b'.toNat).drop a'.toNat

/-- Python `s.rfind(sub)`: greatest index where `sub` occurs, else `-1`. -/
def pyRfind (s sub : List Char) : Int :=
  (List.range (s.length + 1)).foldl
    (fun acc i => if (s.drop i).take sub.length = sub then (i : Int) else acc) (-1)

/-- Python `max(xs)` over a possibly-empty sequence: `none` models the
`ValueError` raised on an empty sequence. -/
def pyMax : List Int → Option Int
  | [] => none
  | x :: xs => some (xs.foldl max x)

/-- Python `sub in s` (substring containment). -/
def containsSubstr (s sub : List Char) : Bool :=
  (List.range (s.length + 1)).any (fun i => (s.drop i).take sub.length == sub)

/-- Python `s.lower()` (ASCII part). -/
def pyLower (s : List Char) : List Char := s.map Char.toLower

/-- Outcome of running the `while` loop of
`TextProcessingAgent.create_chunks` with a given amount of fuel. -/
inductive ChunkOutcome where
  | ok (chunks : List (List Char))
  | err
  | fuel
deriving DecidableEq

/-- The body of `create_chunks` that computes `end` for the current window:
`end = start + chunk_size`; if `end < len(text)` the three `rfind` break
candidates are collected and `break_point = max(point for point in
break_candidates.keys() if point != -1)` — `none` models the `ValueError`
this `max` raises when all three `rfind`s returned `-1`.  The dead
`if break_point != -1` test of the source is kept. -/
def computeEnd (text : List Char) (chunkSize : Int) (start : Int) : Option Int :=
  let e := start + chunkSize
  if e < (text.length : Int) then
    let w := pySlice text start e
    let breakCandidates := [pyRfind w ['\n', '\n'], pyRfind w ['.', ' '], pyRfind w ['\n']]
    match pyMax (breakCandidates.filter (fun point => point ≠ -1)) with
    | none => none
    | some breakPoint =>
        some (if breakPoint ≠ -1 then start + breakPoint + 1 else e)
  else some e

/-- `TextProcessingAgent.create_chunks`: the `while start < len(text)`
loop, with fuel.  Each pass slices `text[start:end]`, strips it, appends it
when non-empty, and sets `start = end - overlap`. -/
def createChunksAux (text : List Char) (chunkSize overlap : Int) :
    Nat → Int → List (List Char) → ChunkOutcome
  | 0, _, _ => ChunkOutcome.fuel
  | fuel + 1, start, chunks =>
    if start < (text.length : Int) then
      match computeEnd text chunkSize start with
      | none => ChunkOutcome.err
      | some e =>
          let chunk := pyStrip (pySlice text start e)
          let chunks' := if chunk.isEmpty then chunks else chunks ++ [chunk]
          createChunksAux text chunkSize overlap fuel (e - overlap) chunks'
    else ChunkOutcome.ok chunks

/-- `create_chunks(text)` on an agent configured with `chunkSize` and
`overlap`, run with the given fuel. -/
def createChunks (text : List Char) (chunkSize overlap : Int) (fuel : Nat) : ChunkOutcome :=
  createChunksAux text chunkSize overlap fuel 0 []

/-- Ghost companion of `createChunksAux`: the same control flow, recording
the `[start, end)` window of each loop pass instead of the stripped chunk.
`none` models both the `ValueError` and fuel exhaustion. -/
def chunkWindowsAux (text : List Char) (chunkSize overlap : Int) :
    Nat → Int → Option (List (Int × Int))
  | 0, _ => none
  | fuel + 1, start =>
    if start < (text.length : Int) then
      match computeEnd text chunkSize start with
      | none => none
      | some e =>
        match chunkWindowsAux text chunkSize overlap fuel (e - overlap) with
        | none => none
        | some ws => some ((start, e) :: ws)
    else some []

/-- The chunk a window contributes: its stripped slice when non-empty. -/
def stripNonempty (text : List Char) (w : Int × Int) : Option (List Char) :=
  let chunk := pyStrip (pySlice text w.1 w.2)
  if chunk.isEmpty then none else some chunk

/-- `agents.QAPair`: `confidence` defaults to 1.0, `metadata` to `None`.
Confidences only ever hold 1.0, 0.5 and are compared with 0.8, all exactly
representable, so `ℚ` models the Python float faithfully here. -/
structure QAPair where
  question : List Char
  answer : List Char
  confidence : ℚ := 1
  metadata : Option (List (List Char × List Char)) := none
deriving DecidableEq

/-- Python `s.split(c)` on a single-character separator. -/
def splitOnChar (c : Char) : List Char → List (List Char)
  | [] => [[]]
  | x :: xs =>
    match splitOnChar c xs with
    | [] => [[]]
    | h :: t => if x = c then [] :: h :: t else (x :: h) :: t

/-- `line.startswith(tuple)`. -/
def startsWithOne (line : List Char) (ps : List (List Char)) : Bool :=
  ps.any (fun p => line.take p.length == p)

/-- `line.split(':', 1)[1]`: what follows the first colon (every line this
is applied to starts with a colon-bearing prefix, so the colon exists). -/
def afterColon (line : List Char) : List Char :=
  (line.dropWhile (fun c => c ≠ ':')).drop 1

def questionPrefixes : List (List Char) :=
  ["Q1:".toList, "Q2:".toList, "Q3:".toList, "Q:".toList, "Question:".toList]

def answerPrefixes : List (List Char) :=
  ["A1:".toList, "A2:".toList, "A3:".toList, "A:".toList, "Answer:".toList]

def sourceTypeKey : List Char := "source_type".toList

def groqLlama2 : List Char := "groq_llama2".toList

def llamaVersatile : List Char := "llama-3.1-70b-versatile".toList

/-- One pass of the line loop of `QAGenerationAgent._parse_qa_response`:
state is `(current_question, current_answer, qa_pairs)`. -/
def parseStep (st : Option (List Char) × Option (List Char) × List QAPair)
    (line : List Char) : Option (List Char) × Option (List Char) × List QAPair :=
  let (curQ, curA, pairs) := st
  if startsWithOne line questionPrefixes then
    let pairs' :=
      match curQ, curA with
      | some q, some a => pairs ++ [QAPair.mk q a 1 (some [(sourceTypeKey, groqLlama2)])]
      | _, _ => pairs
    (some (pyStrip (afterColon line)), none, pairs')
  else if startsWithOne line answerPrefixes then
    let a := pyStrip (afterColon line)
    match curQ with
    | some q => (none, none, pairs ++ [QAPair.mk q a 1 (some [(sourceTypeKey, groqLlama2)])])
    | none => (none, some a, pairs)
  else (curQ, curA, pairs)

/-- `QAGenerationAgent._parse_qa_response`. -/
def parseQaResponse (responseText : List Char) : List QAPair :=
  let lines := ((splitOnChar '\n' (pyStrip responseText)).map pyStrip).filter
    (fun l => ¬ l.isEmpty)
  let (curQ, curA, pairs) := lines.foldl parseStep (none, none, [])
  let pairs :=
    match curQ, curA with
    | some q, some a => pairs ++ [QAPair.mk q a 1 (some [(sourceTypeKey, llamaVersatile)])]
    | _, _ => pairs
  pairs.filter (fun pair =>
    ¬ pair.question.isEmpty && ¬ pair.answer.isEmpty &&
    (pyStrip pair.question).length > 0 && (pyStrip pair.answer).length > 0)

/-- `Prompts.CONTEXT_INSTRUCTION.format(context=context)`. -/
def contextInstructionPrompt (context : List Char) : List Char :=
  "\nPrevious Context:\n".toList ++ context ++
  "\nConsider this context while generating questions to maintain continuity and avoid repetition.".toList

/-- `Prompts.QA_GENERATION.format(text_content=…, context_instruction=…)`. -/
def qaGenerationPrompt (textContent ctxInstr : List Char) : List Char :=
  "You are a specialized AI trained to create high-quality question-answer pairs for training data.\n\nContent to process:\n".toList
  ++ textContent ++
  "\n\nInstructions:\n- Create alot of possible diverse question-answer pairs from the given content\n- Make sure to touch every part of the topic so that you don't miss any questions.\n- Questions should test different aspects of understanding\n- Ensure questions are clear and unambiguous\n- Answers should be comprehensive but concise\n- Focus on important information and key concepts\n- Avoid redundant or trivial questions\n".toList
  ++ ctxInstr ++
  "\n\nOutput Format Requirements:\n- Each pair MUST start with 'Q1:', 'Q2:', or 'Q3:' for questions\n- Each answer MUST start with 'A1:', 'A2:', or 'A3:' respectively\n- Questions and answers MUST alternate (Q1, A1, Q2, A2, Q3, A3)\n- Questions and answers MUST NOT be empty\n- DO NOT include any additional formatting or text\n\nExample Format:\nQ1: What is the main concept discussed in the text?\nA1: The main concept is...\nQ2: How does the text explain...?\nA2: The text explains this by...\nQ3: What are the key implications of...?\nA3: The key implications are...".toList

/-- `Prompts.ERROR_RECOVERY.format(text_content=…, context_instruction=…)`. -/
def errorRecoveryPrompt (textContent ctxInstr : List Char) : List Char :=
  "The previous attempt to generate QA pairs encountered an error. Please try again with the following content, focusing on simpler, more straightforward questions:\n\nContent:\n".toList
  ++ textContent ++ "\n\n".toList ++ ctxInstr

/-- The `for attempt in range(retry_count + 1)` loop of
`QAGenerationAgent.generate_qa_pairs`.  `backend attempt` is the API call
of that attempt (`none` = it raised); `remaining = retry_count - attempt`.
Besides the returned pairs, the list of prompts sent (one per issued
request, in order) is recorded. -/
def generateLoop (backend : Nat → Option (List Char)) (recoveryPrompt : List Char) :
    Nat → Nat → List Char → List (List Char) → List QAPair × List (List Char)
  | attempt, remaining, prompt, log =>
    match backend attempt with
    | some resp => (parseQaResponse resp, log ++ [prompt])
    | none =>
      match remaining with
      | 0 => ([], log ++ [prompt])
      | r + 1 =>
          generateLoop backend recoveryPrompt (attempt + 1) r recoveryPrompt (log ++ [prompt])

/-- `context_instruction`: `Prompts.CONTEXT_INSTRUCTION.format(context=context)
if context else ""` (empty when `context` is `None` or the empty string). -/
def contextInstructionOf (context : Option (List Char)) : List Char :=
  match context with
  | some c => if c.isEmpty then [] else contextInstructionPrompt c
  | none => []

/-- `QAGenerationAgent.generate_qa_pairs(chunk, context, retry_count)`:
builds the context instruction, starts from the full QA-generation prompt,
and runs the attempt loop. -/
def generateQaPairs (backend : Nat → Option (List Char)) (chunk : List Char)
    (context : Option (List Char)) (retryCount : Nat) : List QAPair × List (List Char) :=
  let ctxInstr := contextInstructionOf context
  let prompt := qaGenerationPrompt chunk ctxInstr
  generateLoop backend (errorRecoveryPrompt chunk ctxInstr) 0 retryCount prompt []

def validTrueNeedle : List Char := "VALID: true".toList

/-- `ValidationAgent._apply_validation_feedback`. -/
def applyValidationFeedback (qaPairs : List QAPair) (feedback : List Char) : List QAPair :=
  qaPairs.foldl (fun validatedPairs pair =>
    let pair' :=
      if containsSubstr (pyLower feedback) validTrueNeedle then
        { pair with confidence := 1 }
      else
        { pair with confidence := 1/2 }
    validatedPairs ++ [pair']) []

/-- `ValidationAgent.validate_qa_pairs`: `backendFeedback` is the API
call's response content (`none` = the call raised, caught by the
`except`, which returns the input pairs unchanged). -/
def validateQaPairs (backendFeedback : Option (List Char)) (qaPairs : List QAPair) :
    List QAPair :=
  match backendFeedback with
  | some feedback => applyValidationFeedback qaPairs feedback
  | none => qaPairs

/-- Python `" ".join(xs)`. -/
def joinSpace (xs : List (List Char)) : List Char := List.intercalate [' '] xs

/-- `ContextManager.update_context`: `backendSummary` is the summary the
API returned (`none` = the call raised).  Returns the new
`context_history` and the returned context string. -/
def updateContext (contextHistory : List (List Char)) (backendSummary : Option (List Char))
    (chunk : List Char) : List (List Char) × List Char :=
  match backendSummary with
  | some summary =>
      let h := contextHistory ++ [summary]
      let h := if h.length > 3 then h.drop 1 else h
      (h, joinSpace h)
  | none => (contextHistory, pySlice chunk (-500) chunk.length)

/-- A run of successive successful `update_context` calls, tracking only
the history. -/
def runUpdates (contextHistory : List (List Char)) (summaries : List (List Char)) :
    List (List Char) :=
  summaries.foldl (fun h s => (updateContext h (some s) []).1) contextHistory

/-- The last `n` elements of a list. -/
def lastN (n : Nat) (l : List α) : List α := l.drop (l.length - n)

/-- The mutable state `DatasetGenerator.process_document` threads through
its chunk loop (the loop-relevant part of `self.stats`, `all_qa_pairs` and
`context`). -/
structure OrchestratorState where
  totalQaPairs : Nat
  highConfidence : Nat
  lowConfidence : Nat
  failedChunks : Nat
  allQaPairs : List QAPair
  context : Option (List Char)
deriving DecidableEq

/-- The successful `try` body for one chunk: statistics update
(`total_qa_pairs`, the per-pair high/low counters with threshold 0.8),
extension of `all_qa_pairs`, and the context update. -/
def confidenceTally (s : OrchestratorState) (pair : QAPair) : OrchestratorState :=
  if pair.confidence > (0.8 : ℚ) then
    { s with highConfidence := s.highConfidence + 1 }
  else
    { s with lowConfidence := s.lowConfidence + 1 }

def processChunkSuccess (st : OrchestratorState) (validatedPairs : List QAPair)
    (newContext : List Char) : OrchestratorState :=
  let st := { st with totalQaPairs := st.totalQaPairs + validatedPairs.length }
  let st := validatedPairs.foldl confidenceTally st
  { st with allQaPairs := st.allQaPairs ++ validatedPairs, context := some newContext }

/-- The `for i, chunk in enumerate(chunks)` loop of `process_document`:
`outcomes` holds, per chunk, either the pair (validated pairs, new
context) the `try` body produced, or `none` when an exception escaped it,
in which case the `except` branch increments `failed_chunks` and the loop
continues. -/
def processChunks (outcomes : List (Option (List QAPair × List Char)))
    (st : OrchestratorState) : OrchestratorState :=
  match outcomes with
  | [] => st
  | some (validatedPairs, newContext) :: rest =>
      processChunks rest (processChunkSuccess st validatedPairs newContext)
  | none :: rest =>
      processChunks rest { st with failedChunks := st.failedChunks + 1 }

/-- `TextProcessingAgent()` defaults, used by `DatasetGenerator.__init__`. -/
def textProcessorDefaultChunkSize : Int := 2000

def textProcessorDefaultOverlap : Int := 200

/-- The chunking step of `DatasetGenerator.process_document(input_path,
is_pdf, chunk_size, overlap)`: it calls
`self.text_processor.create_chunks(text)`, where `self.text_processor`
was constructed in `__init__` as `TextProcessingAgent()` with its default
`chunk_size=2000, overlap=200`; the method's own `chunkSize` and
`overlap` arguments are never forwarded to the chunker. -/
def processDocumentChunks (text : List Char) (chunkSize overlap : Int) (fuel : Nat) :
    ChunkOutcome :=
  createChunks text textProcessorDefaultChunkSize textProcessorDefaultOverlap fuel

/-! ### Helper lemmas -/

/-- `Char.toLower` never produces the uppercase letter `V`: a basic-latin
uppercase letter is mapped into `a`–`z`, anything else is returned
unchanged and `V` itself is in the mapped range. -/
theorem toLower_ne_V (c : Char) : Char.toLower c ≠ 'V' := by
  intro h
  by_cases hc : c.toNat ≥ 65 ∧ c.toNat ≤ 90
  · have h2 : Char.ofNat (c.toNat + 32) = 'V' := by
      simpa [Char.toLower, hc] using h
    have hval : (c.toNat + 32).isValidChar := Or.inl (by omega)
    have h3 : (Char.ofNat (c.toNat + 32)).toNat = c.toNat + 32 := by
      rw [Char.ofNat, dif_pos hval]
      simp [Char.ofNatAux, Char.toNat, UInt32.toNat, BitVec.toNat_ofNatLt]
    rw [h2] at h3
    have hv : ('V').toNat = 86 := by decide
    omega
  · have h2 : c = 'V' := by simpa [Char.toLower, hc] using h
    subst h2
    exact hc (by decide)

/-- No lowercased string contains the needle `"VALID: true"`: its first
character `V` is uppercase and `lower()` output has no uppercase `V`. -/
theorem containsSubstr_lower_validTrue_false (feedback : List Char) :
    containsSubstr (pyLower feedback) validTrueNeedle = false := by
  by_contra h
  rw [Bool.not_eq_false, containsSubstr, List.any_eq_true] at h
  obtain ⟨i, _, heq⟩ := h
  rw [beq_iff_eq] at heq
  have hmem : 'V' ∈ ((pyLower feedback).drop i).take validTrueNeedle.length := by
    rw [heq]; decide
  have hmem2 : 'V' ∈ pyLower feedback :=
    List.mem_of_mem_drop (List.mem_of_mem_take hmem)
  rw [pyLower, List.mem_map] at hmem2
  obtain ⟨c, _, hc⟩ := hmem2
  exact toLower_ne_V c hc

theorem foldl_append_eq_map {α β : Type} (g : α → β) (ps : List α) (acc : List β) :
    ps.foldl (fun vp pair => vp ++ [g pair]) acc = acc ++ ps.map g := by
  induction ps generalizing acc with
  | nil => simp
  | cons p ps ih => simp [ih, List.append_assoc]

/-- Because the needle check can never succeed, the validator rewrites
every confidence to 1/2. -/
theorem applyValidationFeedback_eq_map (qaPairs : List QAPair) (feedback : List Char) :
    applyValidationFeedback qaPairs feedback
      = qaPairs.map (fun pair => { pair with confidence := 1/2 }) := by
  unfold applyValidationFeedback
  rw [show (fun (validatedPairs : List QAPair) (pair : QAPair) =>
        let pair' :=
          if containsSubstr (pyLower feedback) validTrueNeedle then
            { pair with confidence := 1 }
          else
            { pair with confidence := 1/2 }
        validatedPairs ++ [pair'])
      = fun validatedPairs pair => validatedPairs ++ [{ pair with confidence := 1/2 }] by
    funext vp pair
    rw [containsSubstr_lower_validTrue_false feedback]
    simp]
  exact foldl_append_eq_map _ qaPairs []

/-! ### Claim theorems -/

/-- C1: the claim says feedback containing the case-insensitive substring
`"valid: true"` makes every pair's confidence 1.0.  The code lowercases
the feedback but searches it for the **uppercase-bearing** needle
`"VALID: true"`, which can never occur in a lowercased string, so every
pair gets confidence 0.5 — even for feedback that is literally
`"VALID: true"`. -/
theorem validator_never_assigns_full_confidence :
    (∀ (qaPairs : List QAPair) (feedback : List Char),
        applyValidationFeedback qaPairs feedback
          = qaPairs.map (fun pair => { pair with confidence := 1/2 }))
    ∧ applyValidationFeedback [QAPair.mk ['q'] ['a'] 1 none] ("VALID: true".toList)
        = [QAPair.mk ['q'] ['a'] (1/2) none] := by
  refine ⟨applyValidationFeedback_eq_map, ?_⟩
  rw [applyValidationFeedback_eq_map]
  rfl

/-- C2: the claim says `create_chunks` never raises and keeps a
marker-less non-final window at its full length.  On a 6-character text
of `a`s with `chunk_size = 5`, `overlap = 0`, the first window
`text[0:5]` contains none of the three markers, all three `rfind`s return
`-1`, and `max` over the empty filtered sequence raises `ValueError`. -/
theorem createChunks_markerless_window_raises :
    createChunks (List.replicate 6 'a') 5 0 10 = ChunkOutcome.err := by rfl

/-- C8: `validate_qa_pairs` returns a list of the same length and order
in which question, answer and metadata of each pair are untouched (only
confidence may change), and a failed backend call returns the input
unchanged. -/
theorem validateQaPairs_frame (backendFeedback : Option (List Char))
    (qaPairs : List QAPair) :
    (validateQaPairs backendFeedback qaPairs).length = qaPairs.length
    ∧ (validateQaPairs backendFeedback qaPairs).map
        (fun p => (p.question, p.answer, p.metadata))
      = qaPairs.map (fun p => (p.question, p.answer, p.metadata))
    ∧ validateQaPairs none qaPairs = qaPairs := by
  refine ⟨?_, ?_, rfl⟩ <;>
    cases backendFeedback <;>
      simp [validateQaPairs, applyValidationFeedback_eq_map, List.map_map, Function.comp]

theorem confidenceTally_foldl (ps : List QAPair) (st : OrchestratorState) :
    (ps.foldl confidenceTally st).failedChunks = st.failedChunks
    ∧ (ps.foldl confidenceTally st).allQaPairs = st.allQaPairs
    ∧ (ps.foldl confidenceTally st).totalQaPairs = st.totalQaPairs := by
  induction ps generalizing st with
  | nil => exact ⟨rfl, rfl, rfl⟩
  | cons p ps ih =>
    rw [List.foldl_cons]
    have h := ih (confidenceTally st p)
    have hc : (confidenceTally st p).failedChunks = st.failedChunks
        ∧ (confidenceTally st p).allQaPairs = st.allQaPairs
        ∧ (confidenceTally st p).totalQaPairs = st.totalQaPairs := by
      unfold confidenceTally
      split <;> exact ⟨rfl, rfl, rfl⟩
    exact ⟨h.1.trans hc.1, h.2.1.trans hc.2.1, h.2.2.trans hc.2.2⟩

theorem lastN_of_le {α : Type} {l : List α} {n : Nat} (h : l.length ≤ n) :
    lastN n l = l := by
  unfold lastN
  rw [Nat.sub_eq_zero_of_le h, List.drop_zero]

theorem lastN_length_le {α : Type} (n : Nat) (l : List α) : (lastN n l).length ≤ n := by
  simp only [lastN, List.length_drop]
  omega

theorem lastN_append_lastN {α : Type} (n : Nat) (a b : List α) :
    lastN n (lastN n a ++ b) = lastN n (a ++ b) := by
  by_cases h : a.length ≤ n
  · rw [lastN_of_le h]
  · have hd : (a.drop (a.length - n)).length = n := by
      simp only [List.length_drop]
      omega
    have ht : (a.take (a.length - n)).length = a.length - n := by
      simp only [List.length_take]
      omega
    calc lastN n (lastN n a ++ b)
        = (a.drop (a.length - n) ++ b).drop b.length := by
          unfold lastN
          congr 1
          rw [List.length_append, hd]
          omega
      _ = (a.take (a.length - n) ++ (a.drop (a.length - n) ++ b)).drop
            ((a.take (a.length - n)).length + b.length) := by
          rw [List.drop_append]
      _ = (a ++ b).drop (a.length + b.length - n) := by
          rw [← List.append_assoc, List.take_append_drop]
          congr 1
          rw [ht]
          omega
      _ = lastN n (a ++ b) := by
          unfold lastN
          rw [List.length_append]

theorem updateContext_success_hist (hist : List (List Char)) (s chunk : List Char)
    (h : hist.length ≤ 3) :
    (updateContext hist (some s) chunk).1 = lastN 3 (hist ++ [s]) := by
  have hr : (updateContext hist (some s) chunk).1
      = if (hist ++ [s]).length > 3 then (hist ++ [s]).drop 1 else hist ++ [s] := rfl
  rw [hr]
  by_cases h3 : hist.length = 3
  · rw [if_pos (by simp only [List.length_append, List.length_cons, List.length_nil]; omega)]
    unfold lastN
    congr 1
    simp only [List.length_append, List.length_cons, List.length_nil]
    omega
  · rw [if_neg (by simp only [List.length_append, List.length_cons, List.length_nil]; omega)]
    exact (lastN_of_le (by
      simp only [List.length_append, List.length_cons, List.length_nil]
      omega)).symm

theorem runUpdates_eq_lastN (summaries : List (List Char)) (hist : List (List Char))
    (h : hist.length ≤ 3) :
    runUpdates hist summaries = lastN 3 (hist ++ summaries) := by
  induction summaries generalizing hist with
  | nil => simp [runUpdates, lastN_of_le h]
  | cons s rest ih =>
    have hstep : runUpdates hist (s :: rest)
        = runUpdates ((updateContext hist (some s) []).1) rest := rfl
    rw [hstep, updateContext_success_hist hist s [] h,
      ih (lastN 3 (hist ++ [s])) (lastN_length_le 3 (hist ++ [s])),
      lastN_append_lastN]
    simp

/-- C9: failed `update_context` calls leave the history untouched and
return the last 500 characters of the chunk; a successful call appends
the summary, evicts the oldest entry past 3, keeps the history at the 3
most recent summaries in order, and returns them joined by single
spaces; after more than 3 successful updates the history is exactly the
3 most recent summaries (the oldest absent). -/
theorem updateContext_history_spec (hist : List (List Char)) (s chunk : List Char)
    (summaries : List (List Char)) (hlen : hist.length ≤ 3)
    (hn : 3 < summaries.length) :
    (updateContext hist none chunk).1 = hist
    ∧ (updateContext hist none chunk).2 = pySlice chunk (-500) chunk.length
    ∧ (updateContext hist (some s) chunk).1 = lastN 3 (hist ++ [s])
    ∧ ((updateContext hist (some s) chunk).1).length ≤ 3
    ∧ (updateContext hist (some s) chunk).2
        = joinSpace ((updateContext hist (some s) chunk).1)
    ∧ runUpdates [] summaries = lastN 3 summaries
    ∧ (runUpdates [] summaries).length = 3 := by
  refine ⟨rfl, rfl, updateContext_success_hist hist s chunk hlen, ?_, rfl, ?_, ?_⟩
  · rw [updateContext_success_hist hist s chunk hlen]
    exact lastN_length_le 3 (hist ++ [s])
  · exact runUpdates_eq_lastN summaries [] (by simp)
  · rw [runUpdates_eq_lastN summaries [] (by simp), List.nil_append]
    simp only [lastN, List.length_drop]
    omega

/-- C9 witness: four successful updates from an empty history leave
exactly the last three summaries. -/
theorem updateContext_history_spec_witness :
    runUpdates [] [['a'], ['b'], ['c'], ['d']] = [['b'], ['c'], ['d']] :=
  ((updateContext_history_spec [] ['s'] [] [['a'], ['b'], ['c'], ['d']]
    (by decide) (by decide)).2.2.2.2.2.1).trans (by decide)

/-- C10: every chunk whose `try` body raises bumps `failed_chunks` by
exactly one, and the loop still processes every remaining chunk: the
final pair list extends the initial one with the pairs of **all**
successful chunks, regardless of interleaved failures. -/
theorem processChunks_failure_isolation
    (outcomes : List (Option (List QAPair × List Char))) (st : OrchestratorState) :
    (processChunks outcomes st).failedChunks
      = st.failedChunks + outcomes.countP (fun o => o.isNone)
    ∧ (processChunks outcomes st).allQaPairs
      = st.allQaPairs ++ (outcomes.filterMap (fun o => o.map Prod.fst)).flatten := by
  induction outcomes generalizing st with
  | nil => simp [processChunks]
  | cons o rest ih =>
    cases o with
    | some pc =>
      have h := ih (processChunkSuccess st pc.1 pc.2)
      have hf : (processChunkSuccess st pc.1 pc.2).failedChunks = st.failedChunks := by
        show (pc.1.foldl confidenceTally
          { st with totalQaPairs := st.totalQaPairs + pc.1.length }).failedChunks
          = st.failedChunks
        rw [(confidenceTally_foldl pc.1 _).1]
      have ha : (processChunkSuccess st pc.1 pc.2).allQaPairs
          = st.allQaPairs ++ pc.1 := by
        show (pc.1.foldl confidenceTally
          { st with totalQaPairs := st.totalQaPairs + pc.1.length }).allQaPairs ++ pc.1
          = st.allQaPairs ++ pc.1
        rw [(confidenceTally_foldl pc.1 _).2.1]
      constructor
      · rw [show processChunks (some pc :: rest) st
            = processChunks rest (processChunkSuccess st pc.1 pc.2) from rfl,
          h.1, hf]
        simp [List.countP_cons]
      · rw [show processChunks (some pc :: rest) st
            = processChunks rest (processChunkSuccess st pc.1 pc.2) from rfl,
          h.2, ha]
        simp [List.filterMap_cons, List.append_assoc]
    | none =>
      have h := ih { st with failedChunks := st.failedChunks + 1 }
      constructor
      · rw [show processChunks (none :: rest) st
            = processChunks rest { st with failedChunks := st.failedChunks + 1 } from rfl,
          h.1]
        simp [List.countP_cons]
        omega
      · rw [show processChunks (none :: rest) st
            = processChunks rest { st with failedChunks := st.failedChunks + 1 } from rfl,
          h.2]
        simp [List.filterMap_cons]

set_option maxRecDepth 8000 in
/-- C4: the claim says `process_document(…, chunk_size, overlap)` chunks
with exactly those values.  The chunker is `self.text_processor`, built in
`__init__` as `TextProcessingAgent()` with defaults 2000/200, and
`create_chunks(text)` takes no size arguments, so the method's parameters
are ignored: on a 501-character text, `chunk_size=500, overlap=50`
produces the single default-sized chunk (the whole text), while a chunker
really configured with 500/50 would instead raise `ValueError`. -/
theorem processDocument_chunking_ignores_arguments :
    (∀ chunkSizeArg overlapArg : Int,
        processDocumentChunks (List.replicate 501 'a') chunkSizeArg overlapArg 5
          = createChunks (List.replicate 501 'a') 2000 200 5)
    ∧ processDocumentChunks (List.replicate 501 'a') 500 50 5
        = ChunkOutcome.ok [List.replicate 501 'a']
    ∧ createChunks (List.replicate 501 'a') 500 50 5 = ChunkOutcome.err :=
  ⟨fun _ _ => rfl, by rfl, by rfl⟩

theorem pyRfind_ge_neg_one (s sub : List Char) : -1 ≤ pyRfind s sub := by
  unfold pyRfind
  suffices h : ∀ (l : List Nat) (acc : Int), -1 ≤ acc →
      -1 ≤ l.foldl
        (fun acc i => if (s.drop i).take sub.length = sub then (i : Int) else acc) acc by
    exact h _ _ le_rfl
  intro l
  induction l with
  | nil => intro acc hacc; simpa using hacc
  | cons i l ih =>
      intro acc hacc
      rw [List.foldl_cons]
      apply ih
      split
      · omega
      · exact hacc

/-- `max` over the `-1`-filtered break candidates equals the plain maximum
of the three `rfind` results whenever at least one marker was found,
because `-1` is the least possible `rfind` result. -/
theorem pyMax_filter_three (p s l : Int) (hp : -1 ≤ p) (hs : -1 ≤ s) (hl : -1 ≤ l)
    (h : ¬(p = -1 ∧ s = -1 ∧ l = -1)) :
    pyMax ([p, s, l].filter (fun point => point ≠ -1)) = some (max p (max s l)) := by
  by_cases h1 : p = -1 <;> by_cases h2 : s = -1 <;> by_cases h3 : l = -1 <;>
    simp only [List.filter, h1, h2, h3, pyMax, decide_not, List.foldl] <;>
    simp <;>
    omega

/-- The spec's description of the break policy: the numerically largest
of the three `rfind` offsets. -/
def specBreakPoint (w : List Char) : Int :=
  max (pyRfind w ['\n', '\n']) (max (pyRfind w ['.', ' ']) (pyRfind w ['\n']))

/-- C3: the claim says a pathological size/overlap combination fails fast
with a configuration error.  There is no such guard: with
`chunk_size = overlap = 2` on the text `"a\ncd"` the loop re-enters every
iteration with `start = 0` (the window snaps to the newline, `end = 2`,
then `start = end - overlap = 0`), so the `while` loop never terminates —
for every amount of fuel the run is still unfinished, and no error of any
kind is raised. -/
theorem createChunks_overlap_eq_chunkSize_diverges :
    ∀ (fuel : Nat) (acc : List (List Char)),
      createChunksAux ['a', '\n', 'c', 'd'] 2 2 fuel 0 acc = ChunkOutcome.fuel := by
  intro fuel
  induction fuel with
  | zero => intro acc; rfl
  | succ n ih =>
      intro acc
      have hstep : createChunksAux ['a', '\n', 'c', 'd'] 2 2 (n + 1) 0 acc
          = createChunksAux ['a', '\n', 'c', 'd'] 2 2 n 0 (acc ++ [['a']]) := rfl
      rw [hstep]
      exact ih (acc ++ [['a']])

/-- C6: in a non-final window in which at least one marker was found, the
loop continues with `end = start + break_point + 1`, where `break_point`
is the numerically largest found `rfind` offset among paragraph, sentence
and line markers (`-1` results ignored), regardless of marker priority. -/
theorem createChunks_break_point_max (text : List Char) (chunkSize overlap : Int)
    (fuel : Nat) (start : Int) (acc : List (List Char))
    (hstart : start < (text.length : Int))
    (hend : start + chunkSize < (text.length : Int))
    (hfound : ¬(pyRfind (pySlice text start (start + chunkSize)) ['\n', '\n'] = -1
        ∧ pyRfind (pySlice text start (start + chunkSize)) ['.', ' '] = -1
        ∧ pyRfind (pySlice text start (start + chunkSize)) ['\n'] = -1)) :
    createChunksAux text chunkSize overlap (fuel + 1) start acc
      = createChunksAux text chunkSize overlap fuel
          (start + specBreakPoint (pySlice text start (start + chunkSize)) + 1 - overlap)
          (if (pyStrip (pySlice text start
                (start + specBreakPoint (pySlice text start (start + chunkSize)) + 1))).isEmpty
           then acc
           else acc ++ [pyStrip (pySlice text start
                (start + specBreakPoint (pySlice text start (start + chunkSize)) + 1))]) := by
  have hp := pyRfind_ge_neg_one (pySlice text start (start + chunkSize)) ['\n', '\n']
  have hs := pyRfind_ge_neg_one (pySlice text start (start + chunkSize)) ['.', ' ']
  have hl := pyRfind_ge_neg_one (pySlice text start (start + chunkSize)) ['\n']
  have hmax := pyMax_filter_three _ _ _ hp hs hl hfound
  have hbp : specBreakPoint (pySlice text start (start + chunkSize)) ≠ -1 := by
    unfold specBreakPoint
    rcases not_and_or.mp hfound with h | h
    · omega
    · rcases not_and_or.mp h with h | h <;> omega
  have hce : computeEnd text chunkSize start
      = some (start + specBreakPoint (pySlice text start (start + chunkSize)) + 1) := by
    simp only [computeEnd]
    rw [if_pos hend, hmax]
    exact congrArg some (if_pos hbp)
  simp only [createChunksAux]
  rw [if_pos hstart, hce]

/-- C6 witness: a concrete window `"ab. c"` (text `"ab. cdexyz"`,
`chunk_size = 5`) whose only marker is the sentence break at offset 2. -/
theorem createChunks_break_point_max_witness :
    createChunksAux ("ab. cdexyz".toList) 5 0 (1 + 1) 0 []
      = createChunksAux ("ab. cdexyz".toList) 5 0 1
          (0 + specBreakPoint (pySlice ("ab. cdexyz".toList) 0 (0 + 5)) + 1 - 0)
          (if (pyStrip (pySlice ("ab. cdexyz".toList) 0
                (0 + specBreakPoint (pySlice ("ab. cdexyz".toList) 0 (0 + 5)) + 1))).isEmpty
           then []
           else [] ++ [pyStrip (pySlice ("ab. cdexyz".toList) 0
                (0 + specBreakPoint (pySlice ("ab. cdexyz".toList) 0 (0 + 5)) + 1))]) :=
  createChunks_break_point_max ("ab. cdexyz".toList) 5 0 1 0 []
    (by decide) (by decide) (by decide)

theorem createChunksAux_ok_nonempty (text : List Char) (cs ov : Int) :
    ∀ (fuel : Nat) (start : Int) (acc chunks : List (List Char)),
      createChunksAux text cs ov fuel start acc = ChunkOutcome.ok chunks →
      (∀ c ∈ acc, c.isEmpty = false) → ∀ c ∈ chunks, c.isEmpty = false := by
  intro fuel
  induction fuel with
  | zero =>
      intro start acc chunks h hacc
      exact absurd h (by simp [createChunksAux])
  | succ n ih =>
      intro start acc chunks h hacc
      simp only [createChunksAux] at h
      by_cases hlt : start < (text.length : Int)
      · rw [if_pos hlt] at h
        cases hce : computeEnd text cs start with
        | none => rw [hce] at h; exact absurd h (by simp)
        | some e =>
            rw [hce] at h
            refine ih (e - ov) _ chunks h ?_
            intro c hc
            by_cases hemp : (pyStrip (pySlice text start e)).isEmpty
            · rw [if_pos hemp] at hc
              exact hacc c hc
            · rw [if_neg hemp] at hc
              rcases List.mem_append.mp hc with h1 | h1
              · exact hacc c h1
              · rw [List.mem_singleton.mp h1]
                simpa using hemp
      · rw [if_neg hlt] at h
        injection h with h
        subst h
        exact hacc

theorem createChunksAux_ok_windows (text : List Char) (cs ov : Int) :
    ∀ (fuel : Nat) (start : Int) (acc chunks : List (List Char)),
      createChunksAux text cs ov fuel start acc = ChunkOutcome.ok chunks →
      ∃ ws, chunkWindowsAux text cs ov fuel start = some ws
        ∧ chunks = acc ++ ws.filterMap (stripNonempty text) := by
  intro fuel
  induction fuel with
  | zero =>
      intro start acc chunks h
      exact absurd h (by simp [createChunksAux])
  | succ n ih =>
      intro start acc chunks h
      simp only [createChunksAux] at h
      by_cases hlt : start < (text.length : Int)
      · rw [if_pos hlt] at h
        cases hce : computeEnd text cs start with
        | none => rw [hce] at h; exact absurd h (by simp)
        | some e =>
            rw [hce] at h
            obtain ⟨ws', hw', hch⟩ := ih (e - ov) _ chunks h
            refine ⟨(start, e) :: ws', ?_, ?_⟩
            · simp only [chunkWindowsAux]
              rw [if_pos hlt, hce]
              show (match chunkWindowsAux text cs ov n (e - ov) with
                | none => none
                | some ws => some ((start, e) :: ws)) = some ((start, e) :: ws')
              rw [hw']
            · rw [hch]
              by_cases hemp : (pyStrip (pySlice text start e)).isEmpty
              · rw [if_pos hemp]
                have hf : stripNonempty text (start, e) = none := by
                  simp only [stripNonempty]
                  rw [if_pos hemp]
                rw [List.filterMap_cons, hf]
              · rw [if_neg hemp]
                have hf : stripNonempty text (start, e)
                    = some (pyStrip (pySlice text start e)) := by
                  simp only [stripNonempty]
                  rw [if_neg hemp]
                rw [List.filterMap_cons, hf, List.append_assoc]
                rfl
      · rw [if_neg hlt] at h
        injection h with h
        subst h
        refine ⟨[], ?_, by simp⟩
        simp only [chunkWindowsAux]
        rw [if_neg hlt]

theorem chunkWindows_cover (text : List Char) (cs ov : Int) (hov : 0 ≤ ov) :
    ∀ (fuel : Nat) (start : Int) (ws : List (Int × Int)),
      chunkWindowsAux text cs ov fuel start = some ws →
      ∀ p : Int, start ≤ p → p < (text.length : Int) →
        ∃ w ∈ ws, w.1 ≤ p ∧ p < w.2 := by
  intro fuel
  induction fuel with
  | zero =>
      intro start ws h
      exact absurd h (by simp [chunkWindowsAux])
  | succ n ih =>
      intro start ws h p hp1 hp2
      simp only [chunkWindowsAux] at h
      by_cases hlt : start < (text.length : Int)
      · rw [if_pos hlt] at h
        cases hce : computeEnd text cs start with
        | none => rw [hce] at h; exact absurd h (by simp)
        | some e =>
            rw [hce] at h
            have h2 : (match chunkWindowsAux text cs ov n (e - ov) with
                | none => none
                | some ws => some ((start, e) :: ws)) = some ws := h
            cases hw : chunkWindowsAux text cs ov n (e - ov) with
            | none => rw [hw] at h2; exact absurd h2 (by simp)
            | some ws' =>
                rw [hw] at h2
                injection h2 with h2
                subst h2
                by_cases hpe : p < e
                · exact ⟨(start, e), List.mem_cons_self _ _, hp1, hpe⟩
                · obtain ⟨w, hw1, hw2⟩ := ih (e - ov) ws' hw p (by omega) hp2
                  exact ⟨w, List.mem_cons_of_mem _ hw1, hw2⟩
      · omega

/-- C5 (amended): restricted to runs of `create_chunks` that return
normally, every returned chunk is non-empty after stripping, and the
chunks are exactly the non-empty stripped slices of a window sequence
whose windows jointly cover every character position of the text (the
stripping and the boundary snap are the only slack). -/
theorem createChunks_cover_nonempty (text : List Char) (chunkSize overlap : Int)
    (fuel : Nat) (chunks : List (List Char)) (hcs : 1 ≤ chunkSize) (hov : 0 ≤ overlap)
    (hlt : overlap < chunkSize)
    (h : createChunks text chunkSize overlap fuel = ChunkOutcome.ok chunks) :
    (∀ c ∈ chunks, c.isEmpty = false)
    ∧ ∃ ws, chunkWindowsAux text chunkSize overlap fuel 0 = some ws
        ∧ chunks = ws.filterMap (stripNonempty text)
        ∧ ∀ p : Int, 0 ≤ p → p < (text.length : Int) →
            ∃ w ∈ ws, w.1 ≤ p ∧ p < w.2 := by
  refine ⟨createChunksAux_ok_nonempty text chunkSize overlap fuel 0 [] chunks h
    (by intro c hc; cases hc), ?_⟩
  obtain ⟨ws, hw, hch⟩ := createChunksAux_ok_windows text chunkSize overlap fuel 0 [] chunks h
  exact ⟨ws, hw, by simpa using hch,
    fun p hp1 hp2 => chunkWindows_cover text chunkSize overlap hov fuel 0 ws hw p hp1 hp2⟩

/-- C5 counterexample: an input inside the claimed range (non-empty text,
`chunkSize = 5 ≥ 1`, `0 ≤ overlap = 1 < 5`) on which `create_chunks`
raises `ValueError` instead of returning covering chunks: the claim as
stated (which quantifies over all such inputs) is false. -/
theorem createChunks_inrange_input_raises :
    createChunks (List.replicate 7 'b') 5 1 10 = ChunkOutcome.err := by rfl

/-- C5 witness: a run that returns normally, on which the amended claim's
conclusion is obtained by applying the theorem. -/
theorem createChunks_cover_nonempty_witness :
    (∀ c ∈ [['a', 'b']], List.isEmpty c = false)
    ∧ ∃ ws, chunkWindowsAux ("ab".toList) 5 0 2 0 = some ws
        ∧ [['a', 'b']] = ws.filterMap (stripNonempty ("ab".toList))
        ∧ ∀ p : Int, 0 ≤ p → p < (("ab".toList).length : Int) →
            ∃ w ∈ ws, w.1 ≤ p ∧ p < w.2 :=
  createChunks_cover_nonempty ("ab".toList) 5 0 2 [['a', 'b']]
    (by decide) (by decide) (by decide) (by rfl)

theorem generateLoop_spec (backend : Nat → Option (List Char)) (recoveryPrompt : List Char) :
    ∀ (remaining attempt : Nat) (prompt : List Char) (log : List (List Char)),
      ((generateLoop backend recoveryPrompt attempt remaining prompt log).2).length
          ≤ log.length + remaining + 1
      ∧ (∃ k ≤ remaining, (generateLoop backend recoveryPrompt attempt remaining prompt log).2
            = log ++ prompt :: List.replicate k recoveryPrompt)
      ∧ ((∀ a : Nat, attempt ≤ a → a ≤ attempt + remaining → backend a = none) →
          (generateLoop backend recoveryPrompt attempt remaining prompt log).1 = []) := by
  intro remaining
  induction remaining with
  | zero =>
      intro attempt prompt log
      cases hb : backend attempt with
      | some resp =>
          have hres : generateLoop backend recoveryPrompt attempt 0 prompt log
              = (parseQaResponse resp, log ++ [prompt]) := by
            simp only [generateLoop]
            rw [hb]
          rw [hres]
          refine ⟨by simp, ⟨0, le_refl 0, by simp⟩, ?_⟩
          intro hall
          exact absurd hb (by rw [hall attempt le_rfl (by omega)]; simp)
      | none =>
          have hres : generateLoop backend recoveryPrompt attempt 0 prompt log
              = ([], log ++ [prompt]) := by
            simp only [generateLoop]
            rw [hb]
          rw [hres]
          exact ⟨by simp, ⟨0, le_refl 0, by simp⟩, fun _ => rfl⟩
  | succ r ih =>
      intro attempt prompt log
      cases hb : backend attempt with
      | some resp =>
          have hres : generateLoop backend recoveryPrompt attempt (r + 1) prompt log
              = (parseQaResponse resp, log ++ [prompt]) := by
            simp only [generateLoop]
            rw [hb]
          rw [hres]
          refine ⟨by simp, ⟨0, by omega, by simp⟩, ?_⟩
          intro hall
          exact absurd hb (by rw [hall attempt le_rfl (by omega)]; simp)
      | none =>
          have hres : generateLoop backend recoveryPrompt attempt (r + 1) prompt log
              = generateLoop backend recoveryPrompt (attempt + 1) r recoveryPrompt
                  (log ++ [prompt]) := by
            simp only [generateLoop]
            rw [hb]
          rw [hres]
          obtain ⟨h1, ⟨k, hk, h2⟩, h3⟩ := ih (attempt + 1) recoveryPrompt (log ++ [prompt])
          refine ⟨by simp at h1 ⊢; omega, ⟨k + 1, by omega, ?_⟩, ?_⟩
          · rw [h2, List.append_assoc]
            simp [List.replicate_succ]
          · intro hall
            exact h3 (fun a ha1 ha2 => hall a (by omega) (by omega))

/-- C7 (amended): `generate_qa_pairs` never raises and issues at most
`retry_count + 1` requests; the first request carries the full
QA-generation prompt and every retry carries the simplified
error-recovery prompt; if every attempt fails the result is empty.  (The
converse direction of the original claim is false: a successful attempt
whose response parses to no pairs also yields the empty sequence.) -/
theorem generateQaPairs_attempts_spec (backend : Nat → Option (List Char))
    (chunk : List Char) (context : Option (List Char)) (retryCount : Nat) :
    ((generateQaPairs backend chunk context retryCount).2).length ≤ retryCount + 1
    ∧ (∃ k ≤ retryCount, (generateQaPairs backend chunk context retryCount).2
        = qaGenerationPrompt chunk (contextInstructionOf context)
            :: List.replicate k (errorRecoveryPrompt chunk (contextInstructionOf context)))
    ∧ ((∀ a : Nat, a ≤ retryCount → backend a = none) →
        (generateQaPairs backend chunk context retryCount).1 = []) := by
  obtain ⟨h1, ⟨k, hk, h2⟩, h3⟩ := generateLoop_spec backend
    (errorRecoveryPrompt chunk (contextInstructionOf context)) retryCount 0
    (qaGenerationPrompt chunk (contextInstructionOf context)) []
  refine ⟨by simpa using h1, ⟨k, hk, by simpa using h2⟩, ?_⟩
  intro hall
  exact h3 (fun a _ ha2 => hall a (by omega))

/-- C7 counterexample: with a backend that answers every attempt
successfully with the unparseable response `"hello"`, the generator
returns the empty sequence after a single request — so an empty result
does **not** imply that all attempts failed. -/
theorem generateQaPairs_empty_without_failure :
    (generateQaPairs (fun _ => some ("hello".toList)) ['c'] none 2).1 = []
    ∧ ((generateQaPairs (fun _ => some ("hello".toList)) ['c'] none 2).2).length = 1 :=
  ⟨rfl, rfl⟩

/-- C7 witness: a backend failing on every attempt with `retry_count = 1`:
two requests (full prompt then one recovery prompt) and an empty result. -/
theorem generateQaPairs_attempts_spec_witness :
    (∃ k ≤ 1, (generateQaPairs (fun _ => none) ['c'] none 1).2
        = qaGenerationPrompt ['c'] (contextInstructionOf none)
            :: List.replicate k (errorRecoveryPrompt ['c'] (contextInstructionOf none)))
    ∧ (generateQaPairs (fun _ => none) ['c'] none 1).1 = [] :=
  ⟨(generateQaPairs_attempts_spec (fun _ => none) ['c'] none 1).2.1,
   (generateQaPairs_attempts_spec (fun _ => none) ['c'] none 1).2.2 (fun a _ => rfl)⟩

end QADataset
